import Mathlib

/-!
Shallow embedding of the PIC32MZ peripheral-register core of
`hw/mips/mips_pic32mz.c` (QEMU board model): register storage, the
clear/set/invert alias write rule, the interrupt arbiter
(`update_irq_status`, `irq_raise`, `irq_clear`), the SYSKEY unlock /
RSWRST software-reset state machine, and the byte/half-word access
router (`pic32_io_read` / `pic32_io_write`).

Machine words are `Nat` kept below `2^32`; `&&&`, `|||`, `^^^` are the
C bitwise operators, and one's complement of a 32-bit word `b` is
`0xffffffff ^^^ b`.

The register offsets and the `VALUE` / `STORAGE` / `WRITEOP` /
`READONLY` helper macros come from `pic32mz.h`, which is not part of
the sources at hand; they are modelled from the spec (flat array of
32-bit cells addressed by offset, aliases at canonical+4/+8/+12,
read-only cases jumping to the shared `readonly` label).  Offsets use
the PIC32MZ data-sheet values.  Only the registers relevant to the
properties below are embedded; the remaining ~500 registers of the
enumeration behave like the plain-storage cases embedded here.
-/

/-- Modelled from the spec: register offsets from `pic32mz.h` (PIC32MZ
memory map), byte offsets from the peripheral base. -/
def CFGCON : Nat := 0x0000
def DEVID : Nat := 0x0020
def SYSKEY : Nat := 0x0030
def OSCCON : Nat := 0x1200
def OSCTUN : Nat := 0x1220
def SPLLCON : Nat := 0x1230
def RCON : Nat := 0x1240
def RSWRST : Nat := 0x1250
def REFO1CON : Nat := 0x1280
def REFO2CON : Nat := 0x12A0
def REFO3CON : Nat := 0x12C0
def REFO4CON : Nat := 0x12E0
def PB1DIV : Nat := 0x1300
def PB2DIV : Nat := 0x1310
def PB3DIV : Nat := 0x1320
def PB4DIV : Nat := 0x1330
def PB5DIV : Nat := 0x1340
def PB7DIV : Nat := 0x1360
def PB8DIV : Nat := 0x1370
def INTCON : Nat := 0x10000
def INTSTAT : Nat := 0x10020
def IPTMR : Nat := 0x10030

/-- Modelled from the spec: `IFS(n)` interrupt-flag bank offsets. -/
def IFS (n : Nat) : Nat := 0x10040 + 0x10 * n

/-- Modelled from the spec: `IEC(n)` interrupt-enable bank offsets. -/
def IEC (n : Nat) : Nat := 0x100C0 + 0x10 * n

/-- Modelled from the spec: `IPC(n)` interrupt-priority word offsets. -/
def IPC (n : Nat) : Nat := 0x10140 + 0x10 * n

/-- Modelled from the spec: `OFF(n)` interrupt vector-offset registers. -/
def OFF (n : Nat) : Nat := 0x10540 + 4 * n

def U1MODE : Nat := 0x22000
def U1STA : Nat := 0x22010
def U1TXREG : Nat := 0x22020
def U1RXREG : Nat := 0x22030
def U1BRG : Nat := 0x22040

/-- Modelled from the spec: `PIC32_IRQ_LAST`, the highest interrupt
source index scanned by `update_irq_status` (the `OFF` table runs
from `OFF(0)` to `OFF(190)`). -/
def PIC32_IRQ_LAST : Nat := 190

/-- Modelled from the spec: `CP0Ca_IP` from the QEMU MIPS headers; the
RIPL field of CP0 Cause sits at bit `CP0Ca_IP + 2`. -/
def CP0Ca_IP : Nat := 8

/-- Modelled from the spec: the `PIC32_CFGCON_*` bit masks from
`pic32mz.h` (PIC32MZ CFGCON bit layout). -/
def PIC32_CFGCON_DMAPRI : Nat := 0x02000000
def PIC32_CFGCON_CPUPRI : Nat := 0x01000000
def PIC32_CFGCON_ICACLK : Nat := 0x00020000
def PIC32_CFGCON_OCACLK : Nat := 0x00010000
def PIC32_CFGCON_IOLOCK : Nat := 0x00002000
def PIC32_CFGCON_PMDLOCK : Nat := 0x00001000
def PIC32_CFGCON_PGLOCK : Nat := 0x00000800
def PIC32_CFGCON_USBSSEN : Nat := 0x00000100
def PIC32_CFGCON_ECC_MASK : Nat := 0x00000030
def PIC32_CFGCON_ECC_DISWR : Nat := 0x00000020
def PIC32_CFGCON_JTAGEN : Nat := 0x00000008
def PIC32_CFGCON_TROEN : Nat := 0x00000004
def PIC32_CFGCON_TDOEN : Nat := 0x00000001

/-- Modelled from the spec: the `PIC32_USTA_*` UART status bits. -/
def PIC32_USTA_URXDA : Nat := 0x00000001
def PIC32_USTA_FERR : Nat := 0x00000004
def PIC32_USTA_PERR : Nat := 0x00000008
def PIC32_USTA_RIDLE : Nat := 0x00000010
def PIC32_USTA_TRMT : Nat := 0x00000100
def PIC32_USTA_UTXBF : Nat := 0x00000200

/-- Board variant enumeration (`BOARD_WIFIRE` .. `BOARD_HMZ144`). -/
def BOARD_WIFIRE : Nat := 0
def BOARD_MEBII : Nat := 1
def BOARD_EXPLORER16 : Nat := 2
def BOARD_HMZ144 : Nat := 3

/-- One's complement of a 32-bit word (`~b` on `uint32_t`). -/
def compl32 (b : Nat) : Nat := 0xffffffff ^^^ b

/-- Diagnostics emitted by the access handlers: the two fatal
"peripheral register not supported" messages (printed before
`exit(1)`) identify the offset and the access direction, and the
non-fatal `readonly` message names the register. -/
inductive Diag where
  | unmapped_read (offset : Nat)
  | unmapped_write (offset data : Nat)
  | readonly_write (name : String) (data : Nat)
  deriving DecidableEq, Repr

/-- The mutable state of the core: `regs` is the flat `iomem` array of
32-bit cells addressed by byte offset (`VALUE`), plus the
`syskey_unlock` state, the CPU's CP0 Cause word, and ghost flags
recording the externally visible one-shot actions
(`cpu_interrupt`, `qemu_system_reset_request`) and the non-fatal
diagnostics printed so far. -/
structure Pic32 where
  regs : Nat → Nat
  syskey_unlock : Nat
  cp0_cause : Nat
  intr : Bool
  resetRequested : Bool
  diags : List Diag
  boardType : Nat
  stop_on_reset : Bool

/-- `VALUE(offset)`: read one 32-bit cell. -/
def VALUE (s : Pic32) (offset : Nat) : Nat := s.regs offset

/-- Store into one 32-bit cell. -/
def setV (s : Pic32) (offset v : Nat) : Pic32 :=
  { s with regs := fun o => if o = offset then v else s.regs o }

/-- `write_op`: perform an assign/clear/set/invert operation, selected
by bits 2..3 of the accessed offset. -/
def write_op (a b op : Nat) : Nat :=
  if op &&& 0xc = 0x0 then b
  else if op &&& 0xc = 0x4 then a &&& compl32 b
  else if op &&& 0xc = 0x8 then a ||| b
  else a ^^^ b

/-- Source pending-and-enabled test of the `update_irq_status` scan:
`((VALUE(IFS(irq >> 5)) & VALUE(IEC(irq >> 5))) >> (irq & 31)) & 1`. -/
def irqPending (s : Pic32) (irq : Nat) : Bool :=
  ((VALUE s (IFS (irq / 32)) &&& VALUE s (IEC (irq / 32))) >>> (irq % 32)) &&& 1 = 1

/-- Packed priority level extraction of the scan:
`(VALUE(IPC(irq >> 2)) >> (2 + (irq & 3) * 8)) & 7`. -/
def irqLevel (s : Pic32) (irq : Nat) : Nat :=
  (VALUE s (IPC (irq / 4)) >>> (2 + (irq % 4) * 8)) &&& 7

/-- One iteration of the scan loop of `update_irq_status`: keep
`(cause_ripl, vector)`, replacing it when a pending source's level is
strictly greater than the best seen so far. -/
def scanStep (q : Nat → Bool) (lvl : Nat → Nat) (best : Nat × Nat) (irq : Nat) : Nat × Nat :=
  if q irq then (if best.1 < lvl irq then (lvl irq, irq) else best) else best

/-- The `for (irq = 0; irq <= PIC32_IRQ_LAST; irq++)` scan of
`update_irq_status`, started from `cause_ripl = 0`, `vector = 0`. -/
def irqScan (s : Pic32) : Nat × Nat :=
  (List.range (PIC32_IRQ_LAST + 1)).foldl (scanStep (irqPending s) (irqLevel s)) (0, 0)

/-- The guard of the scan in `update_irq_status`: some flag bank
overlaps its enable bank. -/
def anyPending (s : Pic32) : Prop :=
  VALUE s (IFS 0) &&& VALUE s (IEC 0) ≠ 0 ∨
  VALUE s (IFS 1) &&& VALUE s (IEC 1) ≠ 0 ∨
  VALUE s (IFS 2) &&& VALUE s (IEC 2) ≠ 0 ∨
  VALUE s (IFS 3) &&& VALUE s (IEC 3) ≠ 0 ∨
  VALUE s (IFS 4) &&& VALUE s (IEC 4) ≠ 0 ∨
  VALUE s (IFS 5) &&& VALUE s (IEC 5) ≠ 0

instance (s : Pic32) : Decidable (anyPending s) := by
  unfold anyPending; infer_instance

/-- `update_irq_status`: clear INTSTAT, scan for the highest-priority
pending-and-enabled source if any bank overlap is non-zero, publish
`vector | (cause_ripl << 8)` in INTSTAT, and update the CP0 Cause RIPL
field (asserting the CPU interrupt) only when the level changed. -/
def update_irq_status (s : Pic32) : Pic32 :=
  let current_ripl := (s.cp0_cause >>> (CP0Ca_IP + 2)) &&& 0x3f
  let s1 := setV s INTSTAT 0
  let best := if anyPending s1 then irqScan s1 else (0, 0)
  let s2 := if anyPending s1 then setV s1 INTSTAT (best.2 ||| (best.1 <<< 8)) else s1
  if best.1 = current_ripl then s2
  else
    { s2 with
      cp0_cause := (s2.cp0_cause &&& compl32 (0x3f <<< (CP0Ca_IP + 2))) |||
        (best.1 <<< (CP0Ca_IP + 2)),
      intr := true }

/-- `irq_raise`: set the source's interrupt flag bit and recompute,
unless the flag is already pending. -/
def irq_raise (s : Pic32) (irq : Nat) : Pic32 :=
  if VALUE s (IFS (irq / 32)) &&& (1 <<< (irq % 32)) ≠ 0 then s
  else
    update_irq_status
      (setV s (IFS (irq / 32)) (VALUE s (IFS (irq / 32)) ||| (1 <<< (irq % 32))))

/-- `irq_clear`: clear the source's interrupt flag bit and recompute,
unless the flag is already clear. -/
def irq_clear (s : Pic32) (irq : Nat) : Pic32 :=
  if VALUE s (IFS (irq / 32)) &&& (1 <<< (irq % 32)) = 0 then s
  else
    update_irq_status
      (setV s (IFS (irq / 32)) (VALUE s (IFS (irq / 32)) &&& compl32 (1 <<< (irq % 32))))

/-- The peripheral collaborator callbacks invoked from the register
handlers (UART character transfer and status refresh, SD-card reset);
their behavior is external to this core and is kept abstract. -/
structure ExtOps where
  get_char : Pic32 → Nat → Pic32 × Nat
  poll_status : Pic32 → Nat → Pic32
  put_char : Pic32 → Nat → Nat → Pic32
  update_mode : Pic32 → Nat → Pic32
  update_status : Pic32 → Nat → Pic32
  sdcard_reset : Pic32 → Pic32

/-- Trivial collaborator: no peripheral reacts (used to instantiate
the universally quantified theorems on concrete runs). -/
def extId : ExtOps :=
  { get_char := fun s _ => (s, 0)
    poll_status := fun s _ => s
    put_char := fun s _ _ => s
    update_mode := fun s _ => s
    update_status := fun s _ => s
    sdcard_reset := fun s => s }

/-- `io_reset`, restricted to the cells of the embedded register
subset: system controller, peripheral-bus divisors and UART1 are
reinitialized exactly as in the source; the RTC/GPIO/SPI/timer/
Ethernet/USB cells reset by the full function are outside this
embedding. -/
def io_reset (s : Pic32) : Pic32 :=
  let s := { s with syskey_unlock := 0 }
  let s := setV s CFGCON (PIC32_CFGCON_ECC_DISWR ||| PIC32_CFGCON_TDOEN)
  let s := setV s SYSKEY 0
  let s := setV s RCON 0
  let s := setV s RSWRST 0
  let s := setV s OSCTUN 0
  let s := setV s SPLLCON (if s.boardType = BOARD_HMZ144 then 0x01630201 else 0x01310201)
  let s := setV s PB1DIV 0x00008801
  let s := setV s PB2DIV 0x00008801
  let s := setV s PB3DIV 0x00008801
  let s := setV s PB4DIV 0x00008801
  let s := setV s PB5DIV 0x00008801
  let s := setV s PB7DIV 0x00008800
  let s := setV s PB8DIV 0x00008801
  let s := setV s U1MODE 0
  let s := setV s U1STA (PIC32_USTA_RIDLE ||| PIC32_USTA_TRMT)
  let s := setV s U1TXREG 0
  let s := setV s U1RXREG 0
  let s := setV s U1BRG 0
  s

/-- `offset ∈ {c, c+4, c+8, c+12}`: the four case labels generated by
the `WRITEOP` macro for a canonical register `c`. -/
def inAlias (offset c : Nat) : Prop :=
  offset = c ∨ offset = c + 4 ∨ offset = c + 8 ∨ offset = c + 12

instance (offset c : Nat) : Decidable (inAlias offset c) := by
  unfold inAlias; infer_instance

/-- The write-side case classification of the `io_write32` switch,
restricted to the embedded register subset.  `writeop` covers the
`WRITEOP(name)` labels (canonical plus the three aliases) with the
flag telling whether the case falls through to the
`irq: update_irq_status` label; `plain` is `STORAGE(name); break`
(the trailing `*bufp = data` plain store); `ro` is `READONLY(name)`. -/
inductive WCase where
  | writeop (canon : Nat) (irqRelevant : Bool)
  | plain (offset : Nat)
  | ro (name : String)
  | cfgcon
  | syskey
  | rswrst
  | u1txreg
  | u1mode
  | u1sta
  | unmapped
  deriving DecidableEq, Repr

/-- Offset decoding for `io_write32` (the switch's case labels, in
source order).  The `IFS`/`IEC`/`IPC` banks are contiguous runs of
`WRITEOP` labels and the `OFF` table a contiguous run of `STORAGE`
labels, so those families are decoded arithmetically. -/
def wdecode (offset : Nat) : WCase :=
  if inAlias offset INTCON then .writeop INTCON false
  else if offset = INTSTAT then .ro "INTSTAT"
  else if inAlias offset IPTMR then .writeop IPTMR false
  else if IFS 0 ≤ offset ∧ offset < IFS 0 + 0x60 ∧ offset % 4 = 0 then
    .writeop (IFS ((offset - IFS 0) / 16)) true
  else if IEC 0 ≤ offset ∧ offset < IEC 0 + 0x60 ∧ offset % 4 = 0 then
    .writeop (IEC ((offset - IEC 0) / 16)) true
  else if IPC 0 ≤ offset ∧ offset < IPC 0 + 0x300 ∧ offset % 4 = 0 then
    .writeop (IPC ((offset - IPC 0) / 16)) true
  else if OFF 0 ≤ offset ∧ offset < OFF 0 + 0x2FC ∧ offset % 4 = 0 then .plain offset
  else if offset = CFGCON then .cfgcon
  else if offset = DEVID then .ro "DEVID"
  else if offset = SYSKEY then .syskey
  else if offset = RCON then .plain offset
  else if inAlias offset RSWRST then .rswrst
  else if offset = OSCCON ∨ offset = OSCTUN ∨ offset = SPLLCON then .plain offset
  else if inAlias offset REFO1CON then .writeop REFO1CON false
  else if inAlias offset REFO2CON then .writeop REFO2CON false
  else if inAlias offset REFO3CON then .writeop REFO3CON false
  else if inAlias offset REFO4CON then .writeop REFO4CON false
  else if inAlias offset PB1DIV then .writeop PB1DIV false
  else if inAlias offset PB2DIV then .writeop PB2DIV false
  else if inAlias offset PB3DIV then .writeop PB3DIV false
  else if inAlias offset PB4DIV then .writeop PB4DIV false
  else if inAlias offset PB5DIV then .writeop PB5DIV false
  else if inAlias offset PB7DIV then .writeop PB7DIV false
  else if inAlias offset PB8DIV then .writeop PB8DIV false
  else if offset = U1TXREG then .u1txreg
  else if inAlias offset U1MODE then .u1mode
  else if inAlias offset U1STA then .u1sta
  else if inAlias offset U1BRG then .writeop U1BRG false
  else if offset = U1RXREG then .ro "U1RXREG"
  else .unmapped

/-- Modelled from the spec: the `WRITEOP` macro body — recompute the
canonical register's cell from its old value, the write data and the
operation selected by the accessed offset's bits 2..3. -/
def writeop (s : Pic32) (canon data offset : Nat) : Pic32 :=
  setV s canon (write_op (VALUE s canon) data offset)

/-- Modelled from the spec: the `WRITEOPR` macro body — like `WRITEOP`
but the bits of the read-only mask `r` keep their stored value. -/
def writeopr (s : Pic32) (canon r data offset : Nat) : Pic32 :=
  setV s canon ((VALUE s canon &&& r) ||| (write_op (VALUE s canon) data offset &&& compl32 r))

/-- CFGCON writable-bit mask assembled in the CFGCON write case. -/
def CFGCON_WMASK : Nat :=
  PIC32_CFGCON_DMAPRI ||| PIC32_CFGCON_CPUPRI |||
  PIC32_CFGCON_ICACLK ||| PIC32_CFGCON_OCACLK |||
  PIC32_CFGCON_IOLOCK ||| PIC32_CFGCON_PMDLOCK |||
  PIC32_CFGCON_PGLOCK ||| PIC32_CFGCON_USBSSEN |||
  PIC32_CFGCON_ECC_MASK ||| PIC32_CFGCON_JTAGEN |||
  PIC32_CFGCON_TROEN ||| PIC32_CFGCON_TDOEN

/-- UART read-only status bits of the `WRITEOPR(UxSTA, ...)` case. -/
def USTA_RMASK : Nat :=
  PIC32_USTA_URXDA ||| PIC32_USTA_FERR ||| PIC32_USTA_PERR |||
  PIC32_USTA_RIDLE ||| PIC32_USTA_TRMT ||| PIC32_USTA_UTXBF

/-- Result of a 32-bit write access: either the successor state, or
the fatal unmapped-offset diagnostic followed by `exit(1)`. -/
inductive WResult where
  | ok (s : Pic32)
  | fatal (d : Diag)

/-- `io_write32`: dispatch a word write through the switch.  `STORAGE`
cases fall out of the switch into the trailing `*bufp = data` plain
store; `WRITEOP` cases store through the alias rule and return (the
interrupt-controller ones recomputing the arbitration first);
`READONLY` cases print the diagnostic and return without storing; the
SYSKEY case steps the unlock state machine against the register's
previously stored value before the trailing store; the RSWRST case
performs the full reset only from unlock stage 2 with bit 0 set. -/
def io_write32 (ext : ExtOps) (s : Pic32) (offset data : Nat) : WResult :=
  match wdecode offset with
  | .writeop canon irqRel =>
      let s' := writeop s canon data offset
      .ok (if irqRel then update_irq_status s' else s')
  | .plain off => .ok (setV s off data)
  | .ro name => .ok { s with diags := Diag.readonly_write name data :: s.diags }
  | .cfgcon =>
      .ok (setV s CFGCON ((data &&& CFGCON_WMASK) ||| (VALUE s CFGCON &&& compl32 CFGCON_WMASK)))
  | .syskey =>
      let u1 := if s.syskey_unlock = 0 ∧ VALUE s SYSKEY = 0xaa996655 then 1 else s.syskey_unlock
      let u2 := if u1 = 1 ∧ VALUE s SYSKEY = 0x556699aa then 2 else 0
      .ok (setV { s with syskey_unlock := u2 } SYSKEY data)
  | .rswrst =>
      let s1 := writeop s RSWRST data offset
      let s2 :=
        if s1.syskey_unlock = 2 ∧ VALUE s1 RSWRST &&& 1 ≠ 0 then
          ext.sdcard_reset (io_reset { s1 with resetRequested := true })
        else s1
      .ok (setV s2 offset data)
  | .u1txreg => .ok (setV (ext.put_char s 0 data) U1TXREG data)
  | .u1mode => .ok (ext.update_mode (writeop s U1MODE data offset) 0)
  | .u1sta => .ok (ext.update_status (writeopr s U1STA USTA_RMASK data offset) 0)
  | .unmapped => .fatal (Diag.unmapped_write offset data)

/-- The read-side case classification of the `io_read32` switch,
restricted to the embedded register subset.  `plain` is
`STORAGE(name); break` (return the stored cell); `zero` is
`STORAGE(name); *bufp = 0; break` (the alias and TXREG read cases that
force the cell to zero and return it). -/
inductive RCase where
  | plain (offset : Nat)
  | zero (offset : Nat)
  | rswrst
  | u1rxreg
  | u1sta
  | unmapped
  deriving DecidableEq, Repr

/-- `offset ∈ {c+4, c+8, c+12}`: the CLR/SET/INV alias offsets of a
canonical register `c` (each a separate `STORAGE` case on reads). -/
def aliasOnly (offset c : Nat) : Prop :=
  offset = c + 4 ∨ offset = c + 8 ∨ offset = c + 12

instance (offset c : Nat) : Decidable (aliasOnly offset c) := by
  unfold aliasOnly; infer_instance

/-- Offset decoding for `io_read32` (the switch's case labels, in
source order).  Unlike writes, the interrupt-controller banks are
readable only at their canonical offsets. -/
def rdecode (offset : Nat) : RCase :=
  if offset = INTCON ∨ offset = INTSTAT then .plain offset
  else if IFS 0 ≤ offset ∧ offset < IFS 0 + 0x60 ∧ offset % 16 = 0 then .plain offset
  else if IEC 0 ≤ offset ∧ offset < IEC 0 + 0x60 ∧ offset % 16 = 0 then .plain offset
  else if IPC 0 ≤ offset ∧ offset < IPC 0 + 0x300 ∧ offset % 16 = 0 then .plain offset
  else if OFF 0 ≤ offset ∧ offset < OFF 0 + 0x2FC ∧ offset % 4 = 0 then .plain offset
  else if offset = CFGCON ∨ offset = DEVID ∨ offset = SYSKEY ∨ offset = RCON then .plain offset
  else if offset = RSWRST then .rswrst
  else if offset = OSCCON ∨ offset = OSCTUN ∨ offset = SPLLCON then .plain offset
  else if offset = REFO1CON ∨ offset = REFO2CON ∨ offset = REFO3CON ∨ offset = REFO4CON then
    .plain offset
  else if aliasOnly offset REFO1CON ∨ aliasOnly offset REFO2CON ∨
      aliasOnly offset REFO3CON ∨ aliasOnly offset REFO4CON then .zero offset
  else if offset = PB1DIV ∨ offset = PB2DIV ∨ offset = PB3DIV ∨ offset = PB4DIV ∨
      offset = PB5DIV ∨ offset = PB7DIV ∨ offset = PB8DIV then .plain offset
  else if aliasOnly offset PB1DIV ∨ aliasOnly offset PB2DIV ∨ aliasOnly offset PB3DIV ∨
      aliasOnly offset PB4DIV ∨ aliasOnly offset PB5DIV ∨ aliasOnly offset PB7DIV ∨
      aliasOnly offset PB8DIV then .zero offset
  else if offset = U1RXREG then .u1rxreg
  else if offset = U1BRG ∨ offset = U1MODE then .plain offset
  else if offset = U1STA then .u1sta
  else if offset = U1TXREG then .zero offset
  else if aliasOnly offset U1MODE ∨ aliasOnly offset U1STA ∨ aliasOnly offset U1BRG then
    .zero offset
  else .unmapped

/-- Result of a 32-bit read access: the successor state and the value,
the fatal unmapped-offset diagnostic followed by `exit(1)`, or the
`exit(0)` of the stop-on-reset RSWRST read. -/
inductive RResult where
  | ok (s : Pic32) (v : Nat)
  | fatal (d : Diag)
  | halt

/-- `io_read32`: dispatch a word read through the switch. -/
def io_read32 (ext : ExtOps) (s : Pic32) (offset : Nat) : RResult :=
  match rdecode offset with
  | .plain off => .ok s (VALUE s off)
  | .zero off => .ok (setV s off 0) 0
  | .rswrst =>
      if VALUE s RSWRST &&& 1 ≠ 0 ∧ s.stop_on_reset then .halt
      else .ok s (VALUE s RSWRST)
  | .u1rxreg =>
      let r := ext.get_char s 0
      .ok (setV r.1 U1RXREG r.2) r.2
  | .u1sta =>
      let s' := ext.poll_status s 0
      .ok s' (VALUE s' U1STA)
  | .unmapped => .fatal (Diag.unmapped_read offset)

/-- `pic32_io_read`: mask the address into the peripheral window, read
the containing word, then extract the addressed byte/half-word
(little-endian) for narrow accesses. -/
def pic32_io_read (ext : ExtOps) (s : Pic32) (addr bytes : Nat) : RResult :=
  let offset := addr % 0x100000
  match io_read32 ext s (offset / 4 * 4) with
  | .ok s' data =>
      match bytes with
      | 1 => .ok s' ((data >>> ((offset % 4) * 8)) % 0x100)
      | 2 => .ok s' ((if offset &&& 2 ≠ 0 then data >>> 16 else data) % 0x10000)
      | _ => .ok s' data
  | r => r

/-- `pic32_io_write`: mask the address into the peripheral window,
truncate and left-shift a narrow value into its byte position, then
hand the word to `io_write32` at the word-aligned offset. -/
def pic32_io_write (ext : ExtOps) (s : Pic32) (addr data bytes : Nat) : WResult :=
  let offset := addr % 0x100000
  let d :=
    match bytes with
    | 1 => (data % 0x100) <<< ((offset % 4) * 8)
    | 2 => (data % 0x10000) <<< (if offset &&& 2 ≠ 0 then 16 else 0)
    | _ => data % 0x100000000
  io_write32 ext s (offset / 4 * 4) d

/-- All-zero power-on state (the flat cell array is zero-initialized
and then overwritten by `io_reset` during board construction). -/
def pic32_init : Pic32 :=
  { regs := fun _ => 0
    syskey_unlock := 0
    cp0_cause := 0
    intr := false
    resetRequested := false
    diags := []
    boardType := BOARD_WIFIRE
    stop_on_reset := true }

/-- Canonical-register value after a write access, if it succeeded. -/
def wvalue (r : WResult) (offset : Nat) : Option Nat :=
  match r with
  | .ok s => some (VALUE s offset)
  | .fatal _ => none

/-- Value returned by a read access, if it succeeded. -/
def rvalue (r : RResult) : Option Nat :=
  match r with
  | .ok _ v => some v
  | _ => none

/-! ### Basic storage lemmas -/

theorem VALUE_setV_self (s : Pic32) (off v : Nat) : VALUE (setV s off v) off = v := by
  simp [VALUE, setV]

theorem VALUE_setV_ne (s : Pic32) (off off' v : Nat) (h : off' ≠ off) :
    VALUE (setV s off v) off' = VALUE s off' := by
  simp [VALUE, setV, h]

/-- `update_irq_status` stores only into INTSTAT: every other cell is
left unchanged. -/
theorem update_irq_status_VALUE (s : Pic32) (off : Nat) (h : off ≠ INTSTAT) :
    VALUE (update_irq_status s) off = VALUE s off := by
  unfold update_irq_status
  dsimp only
  split <;> split <;> simp [VALUE, setV, h]

theorem IFS_ne_INTSTAT (n : Nat) : IFS n ≠ INTSTAT := by
  simp only [IFS, INTSTAT]; omega

theorem IEC_ne_INTSTAT (n : Nat) : IEC n ≠ INTSTAT := by
  simp only [IEC, INTSTAT]; omega

theorem IPC_ne_INTSTAT (n : Nat) : IPC n ≠ INTSTAT := by
  simp only [IPC, INTSTAT]; omega

/-! ### Single-bit arithmetic -/

theorem and_one_shiftLeft_ne_zero_iff (a k : Nat) :
    a &&& (1 <<< k) ≠ 0 ↔ a.testBit k = true := by
  rw [Nat.one_shiftLeft, Nat.and_two_pow]
  cases h : a.testBit k <;> simp [h, (Nat.two_pow_pos k).ne']

theorem or_one_shiftLeft_of_testBit (a k : Nat) (h : a.testBit k = true) :
    a ||| (1 <<< k) = a := by
  apply Nat.eq_of_testBit_eq
  intro i
  rw [Nat.testBit_or, Nat.one_shiftLeft, Nat.testBit_two_pow]
  by_cases hik : k = i
  · subst hik; simp [h]
  · simp [hik]

theorem testBit_or_one_shiftLeft_self (a k : Nat) :
    (a ||| (1 <<< k)).testBit k = true := by
  rw [Nat.testBit_or, Nat.one_shiftLeft, Nat.testBit_two_pow]
  simp

/-! ### Raise / clear basics -/

theorem irq_raise_of_pending (s : Pic32) (irq : Nat)
    (h : VALUE s (IFS (irq / 32)) &&& (1 <<< (irq % 32)) ≠ 0) : irq_raise s irq = s := by
  rw [irq_raise, if_pos h]

theorem irq_raise_of_not_pending (s : Pic32) (irq : Nat)
    (h : ¬ VALUE s (IFS (irq / 32)) &&& (1 <<< (irq % 32)) ≠ 0) :
    irq_raise s irq =
      update_irq_status
        (setV s (IFS (irq / 32)) (VALUE s (IFS (irq / 32)) ||| (1 <<< (irq % 32)))) := by
  rw [irq_raise, if_neg h]

/-- C4.  Raising the same source twice in immediate succession is the
identity on the whole state (flag banks, INTSTAT, CP0 Cause RIPL, the
interrupt line — everything): the second `irq_raise` sees the flag bit
already set and returns before touching anything. -/
theorem irq_raise_idempotent (s : Pic32) (irq : Nat) :
    irq_raise (irq_raise s irq) irq = irq_raise s irq := by
  by_cases h : VALUE s (IFS (irq / 32)) &&& (1 <<< (irq % 32)) ≠ 0
  · rw [irq_raise_of_pending s irq h, irq_raise_of_pending s irq h]
  · rw [irq_raise_of_not_pending s irq h]
    apply irq_raise_of_pending
    rw [update_irq_status_VALUE _ _ (IFS_ne_INTSTAT _), VALUE_setV_self,
      and_one_shiftLeft_ne_zero_iff]
    exact testBit_or_one_shiftLeft_self _ _

/-! ### The unlock / software-reset state machine (C1) -/

/-- Run one 32-bit write with the trivial collaborator, keeping the
state (all the writes below hit mapped registers, as the theorem's
conjuncts assert through `wvalue`). -/
def writeStep (s : Pic32) (offset data : Nat) : Pic32 :=
  match io_write32 extId s offset data with
  | .ok s' => s'
  | .fatal _ => s

/-- C1 (failing input).  From the freshly reset state, the documented
unlock sequence — the first magic word, then the second, written to
SYSKEY — leaves `syskey_unlock` at 0 (never 1 after the first write,
never 2 after the second), because the handler compares the
*previously stored* SYSKEY value (the `*bufp = data` store runs after
the switch) and its second `if`'s `else` arm re-zeroes the state in
the same call that could have set stage 1.  The subsequent RSWRST
write with bit 0 set is therefore ignored: no reset request is issued,
`io_reset` is not run (SYSKEY still holds the second magic word,
RSWRST holds the written 1), and the unlock state stays 0. -/
theorem syskey_unlock_sequence_dead :
    (writeStep (io_reset pic32_init) SYSKEY 0xaa996655).syskey_unlock = 0 ∧
    (writeStep (writeStep (io_reset pic32_init) SYSKEY 0xaa996655) SYSKEY
        0x556699aa).syskey_unlock = 0 ∧
    ((writeStep (writeStep (writeStep (io_reset pic32_init) SYSKEY 0xaa996655) SYSKEY
        0x556699aa) RSWRST 1).resetRequested = false ∧
      (writeStep (writeStep (writeStep (io_reset pic32_init) SYSKEY 0xaa996655) SYSKEY
          0x556699aa) RSWRST 1).syskey_unlock = 0 ∧
      VALUE (writeStep (writeStep (writeStep (io_reset pic32_init) SYSKEY 0xaa996655) SYSKEY
          0x556699aa) RSWRST 1) RSWRST = 1 ∧
      VALUE (writeStep (writeStep (writeStep (io_reset pic32_init) SYSKEY 0xaa996655) SYSKEY
          0x556699aa) RSWRST 1) SYSKEY = 0x556699aa) := by
  decide

/-! ### Read-only registers (C9) -/

/-- The `READONLY` register cases of `io_write32` embedded here. -/
def readonlyRegs : List (Nat × String) :=
  [(INTSTAT, "INTSTAT"), (DEVID, "DEVID"), (U1RXREG, "U1RXREG")]

/-- C9.  A write of any data to a read-only register is non-fatal and
discarded: the handler emits the "readonly register" diagnostic naming
the register and returns before the trailing store, so every stored
cell — in particular the register's own — is unchanged. -/
theorem readonly_write_discarded (ext : ExtOps) (s : Pic32) (data off : Nat) (name : String)
    (h : (off, name) ∈ readonlyRegs) :
    io_write32 ext s off data =
      .ok { s with diags := Diag.readonly_write name data :: s.diags } ∧
    wvalue (io_write32 ext s off data) off = some (VALUE s off) := by
  fin_cases h <;> exact ⟨rfl, rfl⟩

theorem readonly_write_discarded_witness :
    io_write32 extId pic32_init DEVID 0xdeadbeef =
      .ok { pic32_init with diags := [Diag.readonly_write "DEVID" 0xdeadbeef] } ∧
    wvalue (io_write32 extId pic32_init DEVID 0xdeadbeef) DEVID =
      some (VALUE pic32_init DEVID) :=
  readonly_write_discarded extId pic32_init 0xdeadbeef DEVID "DEVID" (by simp [readonlyRegs])

/-! ### Unmapped offsets are fatal (C8) -/

/-- C8.  An offset that matches no register case of the read switch
and none of the write switch is fatal in both directions: the handler
returns the "peripheral register not supported" diagnostic carrying
the offset and the direction (and, for writes, the data), modelling
the `printf` + `exit(1)` of the default cases; no state is returned,
so the access is never silently ignored. -/
theorem unmapped_access_fatal (ext : ExtOps) (s : Pic32) (offset data : Nat)
    (hr : rdecode offset = .unmapped) (hw : wdecode offset = .unmapped) :
    io_read32 ext s offset = .fatal (Diag.unmapped_read offset) ∧
    io_write32 ext s offset data = .fatal (Diag.unmapped_write offset data) := by
  constructor
  · rw [io_read32, hr]
  · rw [io_write32, hw]

theorem unmapped_access_fatal_witness :
    io_read32 extId pic32_init 0x4000 = .fatal (Diag.unmapped_read 0x4000) ∧
    io_write32 extId pic32_init 0x4000 7 = .fatal (Diag.unmapped_write 0x4000 7) :=
  unmapped_access_fatal extId pic32_init 0x4000 7 rfl rfl

/-! ### CFGCON writable mask (C10) -/

/-- C10.  A word write to CFGCON blends the written data into the
fixed writable mask only: every bit outside `CFGCON_WMASK` keeps its
previous stored value, whatever the written data. -/
theorem cfgcon_write_preserves_unwritable_bits (ext : ExtOps) (s : Pic32) (data i : Nat)
    (hi : i < 32) (hm : CFGCON_WMASK.testBit i = false) :
    ∀ s', io_write32 ext s CFGCON data = .ok s' →
      (VALUE s' CFGCON).testBit i = (VALUE s CFGCON).testBit i := by
  intro s' h
  rw [show io_write32 ext s CFGCON data =
      .ok (setV s CFGCON
        ((data &&& CFGCON_WMASK) ||| (VALUE s CFGCON &&& compl32 CFGCON_WMASK))) from rfl] at h
  cases h
  rw [VALUE_setV_self, Nat.testBit_or, Nat.testBit_and, Nat.testBit_and, hm, compl32,
    Nat.testBit_xor, hm, show (0xffffffff : Nat) = 2 ^ 32 - 1 by norm_num,
    Nat.testBit_two_pow_sub_one]
  simp [hi]

theorem cfgcon_write_preserves_unwritable_bits_witness :
    (VALUE (setV pic32_init CFGCON
        ((0xffffffff &&& CFGCON_WMASK) ||| (VALUE pic32_init CFGCON &&& compl32 CFGCON_WMASK)))
      CFGCON).testBit 1 = (VALUE pic32_init CFGCON).testBit 1 :=
  cfgcon_write_preserves_unwritable_bits extId pic32_init 0xffffffff 1 (by norm_num)
    (by decide) _ rfl

/-! ### The alias write rule (C2) -/

theorem and12_eq_mod16_and12 (x : Nat) : x &&& 12 = x % 16 &&& 12 := by
  apply Nat.eq_of_testBit_eq
  intro i
  rw [Nat.testBit_and, Nat.testBit_and, show (16 : Nat) = 2 ^ 4 by norm_num,
    Nat.testBit_mod_two_pow]
  rcases lt_or_ge i 4 with h | h
  · simp [h]
  · have h12 : (12 : Nat).testBit i = false :=
      Nat.testBit_eq_false_of_lt
        (lt_of_lt_of_le (by norm_num) (Nat.pow_le_pow_right (by norm_num) h))
    simp [h12]

theorem add_and12 (c k : Nat) (hc : c % 16 = 0) (hk : k < 16) : (c + k) &&& 12 = k &&& 12 := by
  rw [and12_eq_mod16_and12 (c + k), and12_eq_mod16_and12 k]
  congr 1
  omega

/-- Write semantics at the four offsets of one `WRITEOP` register
whose handler stores through the alias rule and then applies a
canonical-cell-preserving continuation (`update_irq_status` for the
interrupt-relevant registers, nothing for the rest). -/
theorem aliasWrite_ok (ext : ExtOps) (s : Pic32) (c b : Nat) (post : Pic32 → Pic32)
    (hpost : ∀ t : Pic32, VALUE (post t) c = VALUE t c)
    (h0 : io_write32 ext s c b = .ok (post (writeop s c b c)))
    (h4 : io_write32 ext s (c + 4) b = .ok (post (writeop s c b (c + 4))))
    (h8 : io_write32 ext s (c + 8) b = .ok (post (writeop s c b (c + 8))))
    (h12 : io_write32 ext s (c + 12) b = .ok (post (writeop s c b (c + 12))))
    (hc16 : c % 16 = 0) :
    wvalue (io_write32 ext s c b) c = some b ∧
    wvalue (io_write32 ext s (c + 4) b) c = some (VALUE s c &&& compl32 b) ∧
    wvalue (io_write32 ext s (c + 8) b) c = some (VALUE s c ||| b) ∧
    wvalue (io_write32 ext s (c + 12) b) c = some (VALUE s c ^^^ b) := by
  have e0 : c &&& 12 = 0 := by
    have h := add_and12 c 0 hc16 (by norm_num)
    simpa using h
  have e4 : (c + 4) &&& 12 = 4 := by
    have h := add_and12 c 4 hc16 (by norm_num)
    simpa using h
  have e8 : (c + 8) &&& 12 = 8 := by
    have h := add_and12 c 8 hc16 (by norm_num)
    simpa using h
  have e12 : (c + 12) &&& 12 = 12 := by
    have h := add_and12 c 12 hc16 (by norm_num)
    simpa using h
  refine ⟨?_, ?_, ?_, ?_⟩
  · rw [h0]; simp only [wvalue, hpost, writeop, VALUE_setV_self, write_op, e0]
    simp
  · rw [h4]; simp only [wvalue, hpost, writeop, VALUE_setV_self, write_op, e4]
    simp
  · rw [h8]; simp only [wvalue, hpost, writeop, VALUE_setV_self, write_op, e8]
    simp
  · rw [h12]; simp only [wvalue, hpost, writeop, VALUE_setV_self, write_op, e12]
    simp

/-- The canonical registers of the embedded subset whose entire write
handler is the alias rule (plus, for the interrupt controller, the
arbitration recompute): the `WRITEOP ...; return` and
`WRITEOP ...; goto irq` cases of `io_write32`. -/
def aliasWriteRegs : List Nat :=
  [INTCON, IPTMR,
   IFS 0, IFS 1, IFS 2, IFS 3, IFS 4, IFS 5,
   IEC 0, IEC 1, IEC 2, IEC 3, IEC 4, IEC 5,
   IPC 0, IPC 1, IPC 2, IPC 3, IPC 4, IPC 5, IPC 6, IPC 7,
   IPC 8, IPC 9, IPC 10, IPC 11, IPC 12, IPC 13, IPC 14, IPC 15,
   IPC 16, IPC 17, IPC 18, IPC 19, IPC 20, IPC 21, IPC 22, IPC 23,
   IPC 24, IPC 25, IPC 26, IPC 27, IPC 28, IPC 29, IPC 30, IPC 31,
   IPC 32, IPC 33, IPC 34, IPC 35, IPC 36, IPC 37, IPC 38, IPC 39,
   IPC 40, IPC 41, IPC 42, IPC 43, IPC 44, IPC 45, IPC 46, IPC 47,
   REFO1CON, REFO2CON, REFO3CON, REFO4CON,
   PB1DIV, PB2DIV, PB3DIV, PB4DIV, PB5DIV, PB7DIV, PB8DIV,
   U1BRG]

/-- C2.  For every canonical register handled by the alias write rule,
old stored value `a = VALUE s canon` and 32-bit write data `b`: a word
write of `b` to the canonical offset leaves the canonical cell holding
exactly `b`; to the clear alias (canonical+4), `a &&& ~b`; to the set
alias (canonical+8), `a ||| b`; to the invert alias (canonical+12),
`a ^^^ b`. -/
theorem alias_write_rule (ext : ExtOps) (s : Pic32) (canon b : Nat)
    (hc : canon ∈ aliasWriteRegs) (hb : b < 2 ^ 32) :
    wvalue (io_write32 ext s canon b) canon = some b ∧
    wvalue (io_write32 ext s (canon + 4) b) canon = some (VALUE s canon &&& compl32 b) ∧
    wvalue (io_write32 ext s (canon + 8) b) canon = some (VALUE s canon ||| b) ∧
    wvalue (io_write32 ext s (canon + 12) b) canon = some (VALUE s canon ^^^ b) := by
  fin_cases hc <;>
    first
      | exact aliasWrite_ok ext s _ b update_irq_status
          (fun t => update_irq_status_VALUE t _ (by decide)) rfl rfl rfl rfl (by decide)
      | exact aliasWrite_ok ext s _ b id (fun t => rfl) rfl rfl rfl rfl (by decide)

theorem alias_write_rule_witness :
    wvalue (io_write32 extId pic32_init INTCON 5 ) INTCON = some 5 ∧
    wvalue (io_write32 extId pic32_init (INTCON + 4) 5) INTCON =
      some (VALUE pic32_init INTCON &&& compl32 5) ∧
    wvalue (io_write32 extId pic32_init (INTCON + 8) 5) INTCON =
      some (VALUE pic32_init INTCON ||| 5) ∧
    wvalue (io_write32 extId pic32_init (INTCON + 12) 5) INTCON =
      some (VALUE pic32_init INTCON ^^^ 5) :=
  alias_write_rule extId pic32_init INTCON 5 (by simp [aliasWriteRegs]) (by norm_num)

/-! ### The scan computes the first maximum (C3, C5) -/

/-- Invariant of the scan loop: the accumulated `(cause_ripl, vector)`
pair bounds every qualifying source's level; when positive it is
attained at `vector`, every earlier qualifying source being strictly
lower (strict greater-than keeps the first maximum); and when no
source beat the initial 0, the vector is still the initial 0. -/
theorem scan_foldl_inv (q : Nat → Bool) (lvl : Nat → Nat) (n : Nat) :
    (∀ j < n, q j = true → lvl j ≤ ((List.range n).foldl (scanStep q lvl) (0, 0)).1) ∧
    (0 < ((List.range n).foldl (scanStep q lvl) (0, 0)).1 →
      ((List.range n).foldl (scanStep q lvl) (0, 0)).2 < n ∧
      q ((List.range n).foldl (scanStep q lvl) (0, 0)).2 = true ∧
      lvl ((List.range n).foldl (scanStep q lvl) (0, 0)).2 =
        ((List.range n).foldl (scanStep q lvl) (0, 0)).1 ∧
      ∀ j < ((List.range n).foldl (scanStep q lvl) (0, 0)).2, q j = true →
        lvl j < ((List.range n).foldl (scanStep q lvl) (0, 0)).1) ∧
    (((List.range n).foldl (scanStep q lvl) (0, 0)).1 = 0 →
      ((List.range n).foldl (scanStep q lvl) (0, 0)).2 = 0) := by
  induction n with
  | zero => simp
  | succ m ih =>
    obtain ⟨ih1, ih2, ih3⟩ := ih
    rw [List.range_succ, List.foldl_append, List.foldl_cons, List.foldl_nil]
    set r := (List.range m).foldl (scanStep q lvl) (0, 0) with hr
    by_cases hq : q m = true
    · by_cases hl : r.1 < lvl m
      · rw [show scanStep q lvl r m = (lvl m, m) by rw [scanStep, if_pos hq, if_pos hl]]
        refine ⟨?_, ?_, ?_⟩
        · intro j hj hqj
          rcases Nat.lt_succ_iff_lt_or_eq.mp hj with hj' | rfl
          · exact le_of_lt (lt_of_le_of_lt (ih1 j hj' hqj) hl)
          · exact le_refl _
        · intro _
          exact ⟨Nat.lt_succ_self m, hq, rfl,
            fun j hj hqj => lt_of_le_of_lt (ih1 j hj hqj) hl⟩
        · intro h0
          exact absurd h0 (by omega)
      · rw [show scanStep q lvl r m = r by rw [scanStep, if_pos hq, if_neg hl]]
        refine ⟨?_, ?_, ih3⟩
        · intro j hj hqj
          rcases Nat.lt_succ_iff_lt_or_eq.mp hj with hj' | rfl
          · exact ih1 j hj' hqj
          · omega
        · intro hpos
          obtain ⟨h2, h3, h4, h5⟩ := ih2 hpos
          exact ⟨Nat.lt_succ_of_lt h2, h3, h4, h5⟩
    · rw [show scanStep q lvl r m = r by rw [scanStep, if_neg hq]]
      refine ⟨?_, ?_, ih3⟩
      · intro j hj hqj
        rcases Nat.lt_succ_iff_lt_or_eq.mp hj with hj' | rfl
        · exact ih1 j hj' hqj
        · exact absurd hqj hq
      · intro hpos
        obtain ⟨h2, h3, h4, h5⟩ := ih2 hpos
        exact ⟨Nat.lt_succ_of_lt h2, h3, h4, h5⟩

/-- With no qualifying source at all, the scan returns `(0, 0)`. -/
theorem scan_foldl_of_none (q : Nat → Bool) (lvl : Nat → Nat) (n : Nat)
    (h : ∀ j < n, q j = false) :
    (List.range n).foldl (scanStep q lvl) (0, 0) = (0, 0) := by
  obtain ⟨inv1, inv2, inv3⟩ := scan_foldl_inv q lvl n
  rcases Nat.eq_zero_or_pos ((List.range n).foldl (scanStep q lvl) (0, 0)).1 with h0 | hpos
  · exact Prod.ext h0 (inv3 h0)
  · obtain ⟨hlt, hqv, _, _⟩ := inv2 hpos
    rw [h _ hlt] at hqv
    cases hqv

/-! ### The scan is a function of the bank state only -/

theorem irqPending_congr (s t : Pic32)
    (hb : ∀ n < 6, VALUE t (IFS n) = VALUE s (IFS n) ∧ VALUE t (IEC n) = VALUE s (IEC n))
    (j : Nat) (hj : j ≤ 190) : irqPending t j = irqPending s j := by
  have hj32 : j / 32 < 6 := by omega
  rw [irqPending, irqPending, (hb _ hj32).1, (hb _ hj32).2]

theorem irqLevel_congr (s t : Pic32)
    (hp : ∀ n < 48, VALUE t (IPC n) = VALUE s (IPC n))
    (j : Nat) (hj : j ≤ 190) : irqLevel t j = irqLevel s j := by
  have hj4 : j / 4 < 48 := by omega
  rw [irqLevel, irqLevel, hp _ hj4]

theorem irqScan_congr (s t : Pic32)
    (hb : ∀ n < 6, VALUE t (IFS n) = VALUE s (IFS n) ∧ VALUE t (IEC n) = VALUE s (IEC n))
    (hp : ∀ n < 48, VALUE t (IPC n) = VALUE s (IPC n)) :
    irqScan t = irqScan s := by
  rw [irqScan, irqScan]
  apply List.foldl_ext
  intro b j hj
  have hj' : j ≤ 190 := by
    have := List.mem_range.mp hj
    simp only [PIC32_IRQ_LAST] at this
    omega
  rw [scanStep, scanStep, irqPending_congr s t hb j hj', irqLevel_congr s t hp j hj']

theorem anyPending_congr (s t : Pic32)
    (hb : ∀ n < 6, VALUE t (IFS n) = VALUE s (IFS n) ∧ VALUE t (IEC n) = VALUE s (IEC n)) :
    anyPending t ↔ anyPending s := by
  unfold anyPending
  rw [(hb 0 (by norm_num)).1, (hb 0 (by norm_num)).2, (hb 1 (by norm_num)).1,
    (hb 1 (by norm_num)).2, (hb 2 (by norm_num)).1, (hb 2 (by norm_num)).2,
    (hb 3 (by norm_num)).1, (hb 3 (by norm_num)).2, (hb 4 (by norm_num)).1,
    (hb 4 (by norm_num)).2, (hb 5 (by norm_num)).1, (hb 5 (by norm_num)).2]

theorem not_anyPending_iff (s : Pic32) :
    ¬ anyPending s ↔ ∀ n < 6, VALUE s (IFS n) &&& VALUE s (IEC n) = 0 := by
  unfold anyPending
  push_neg
  constructor
  · rintro ⟨h0, h1, h2, h3, h4, h5⟩ n hn
    interval_cases n <;> assumption
  · intro h
    exact ⟨h 0 (by norm_num), h 1 (by norm_num), h 2 (by norm_num), h 3 (by norm_num),
      h 4 (by norm_num), h 5 (by norm_num)⟩

theorem irqPending_eq_false_of_no_overlap (s : Pic32) (j : Nat) (hj : j ≤ 190)
    (h : ∀ n < 6, VALUE s (IFS n) &&& VALUE s (IEC n) = 0) : irqPending s j = false := by
  have hz : VALUE s (IFS (j / 32)) &&& VALUE s (IEC (j / 32)) = 0 := h _ (by omega)
  rw [irqPending, hz]
  simp

/-- The banks of `setV s INTSTAT v` agree with those of `s`. -/
theorem banks_setV_INTSTAT (s : Pic32) (v : Nat) :
    (∀ n < 6, VALUE (setV s INTSTAT v) (IFS n) = VALUE s (IFS n) ∧
      VALUE (setV s INTSTAT v) (IEC n) = VALUE s (IEC n)) ∧
    (∀ n < 48, VALUE (setV s INTSTAT v) (IPC n) = VALUE s (IPC n)) := by
  constructor
  · intro n _
    exact ⟨VALUE_setV_ne _ _ _ _ (IFS_ne_INTSTAT n), VALUE_setV_ne _ _ _ _ (IEC_ne_INTSTAT n)⟩
  · intro n _
    exact VALUE_setV_ne _ _ _ _ (IPC_ne_INTSTAT n)

/-- The CP0-Cause/interrupt-line record update of `update_irq_status`
does not touch the cell array. -/
theorem VALUE_update_cause (t : Pic32) (x : Nat) (b : Bool) (off : Nat) :
    VALUE { t with cp0_cause := x, intr := b } off = VALUE t off := rfl

/-- If no bank overlaps, no source qualifies and the scan is `(0,0)`. -/
theorem irqScan_of_no_overlap (s : Pic32)
    (hnone : ∀ n < 6, VALUE s (IFS n) &&& VALUE s (IEC n) = 0) : irqScan s = (0, 0) := by
  rw [irqScan]
  apply scan_foldl_of_none
  intro j hj
  apply irqPending_eq_false_of_no_overlap s j _ hnone
  simp only [PIC32_IRQ_LAST] at hj
  omega

/-- After the recompute, INTSTAT holds exactly
`vector | (cause_ripl << 8)` for the scan result of the bank state. -/
theorem update_irq_status_INTSTAT (s : Pic32) :
    VALUE (update_irq_status s) INTSTAT = (irqScan s).2 ||| ((irqScan s).1 <<< 8) := by
  have hbk := banks_setV_INTSTAT s 0
  have hscan : irqScan (setV s INTSTAT 0) = irqScan s := irqScan_congr s _ hbk.1 hbk.2
  unfold update_irq_status
  dsimp only
  by_cases hA : anyPending (setV s INTSTAT 0)
  · rw [if_pos hA, if_pos hA]
    split
    · rw [VALUE_setV_self, hscan]
    · rw [VALUE_update_cause, VALUE_setV_self, hscan]
  · rw [if_neg hA, if_neg hA]
    have hnone : ∀ n < 6, VALUE s (IFS n) &&& VALUE s (IEC n) = 0 := by
      have h' := (not_anyPending_iff _).mp hA
      intro n hn
      rw [← (hbk.1 n hn).1, ← (hbk.1 n hn).2]
      exact h' n hn
    rw [irqScan_of_no_overlap s hnone]
    split
    · rw [VALUE_setV_self]; simp
    · rw [VALUE_update_cause, VALUE_setV_self]; simp

/-! ### The CPU-visible priority level (C5) -/

/-- The CPU-visible request priority level: the RIPL field read from
CP0 Cause, exactly as `update_irq_status` reads `current_ripl`. -/
def ripl (s : Pic32) : Nat := (s.cp0_cause >>> (CP0Ca_IP + 2)) &&& 0x3f

theorem ripl_of_masked (x : Nat) :
    ((x &&& compl32 (0x3f <<< (CP0Ca_IP + 2))) >>> (CP0Ca_IP + 2)) &&& 0x3f = 0 := by
  have hmask : compl32 (0x3f <<< (CP0Ca_IP + 2)) = 0xffff03ff := by decide
  rw [hmask]
  apply Nat.eq_of_testBit_eq
  intro i
  rw [Nat.zero_testBit, Nat.testBit_and, Nat.testBit_shiftRight, Nat.testBit_and]
  rcases lt_or_ge i 6 with hi | hi
  · have hz : Nat.testBit 0xffff03ff (CP0Ca_IP + 2 + i) = false := by
      simp only [CP0Ca_IP]
      interval_cases i <;> decide
    rw [hz]
    simp
  · have hz : Nat.testBit 0x3f i = false :=
      Nat.testBit_eq_false_of_lt
        (lt_of_lt_of_le (by norm_num) (Nat.pow_le_pow_right (by norm_num) hi))
    rw [hz]
    simp

theorem update_irq_status_ripl_zero (s : Pic32)
    (hnone : ∀ n < 6, VALUE s (IFS n) &&& VALUE s (IEC n) = 0) :
    ripl (update_irq_status s) = 0 := by
  have hbk := banks_setV_INTSTAT s 0
  have hA : ¬ anyPending (setV s INTSTAT 0) := fun h =>
    ((not_anyPending_iff s).mpr hnone) ((anyPending_congr s _ hbk.1).mp h)
  unfold update_irq_status
  dsimp only
  rw [if_neg hA, if_neg hA]
  split
  · next h =>
      rw [show ripl (setV s INTSTAT 0) = (s.cp0_cause >>> (CP0Ca_IP + 2)) &&& 0x3f from rfl,
        ← h]
  · show ((s.cp0_cause &&& compl32 (0x3f <<< (CP0Ca_IP + 2)) |||
        ((0, 0) : Nat × Nat).1 <<< (CP0Ca_IP + 2)) >>> (CP0Ca_IP + 2)) &&& 0x3f = 0
    rw [show (((0, 0) : Nat × Nat).1 <<< (CP0Ca_IP + 2)) = 0 from Nat.zero_shiftLeft _,
      Nat.or_zero]
    exact ripl_of_masked s.cp0_cause

/-- With an empty pending-and-enabled set, the recompute publishes
INTSTAT = 0, the scan result is `(0, 0)`, and the CPU-visible level is
driven to 0. -/
theorem update_no_pending (s : Pic32)
    (hnone : ∀ n < 6, VALUE s (IFS n) &&& VALUE s (IEC n) = 0) :
    VALUE (update_irq_status s) INTSTAT = 0 ∧ irqScan s = (0, 0) ∧
      ripl (update_irq_status s) = 0 := by
  refine ⟨?_, irqScan_of_no_overlap s hnone, update_irq_status_ripl_zero s hnone⟩
  rw [update_irq_status_INTSTAT, irqScan_of_no_overlap s hnone]
  simp

theorem shift_and_compl32_self (k : Nat) (hk : k < 32) :
    (1 <<< k) &&& compl32 (1 <<< k) = 0 := by
  apply Nat.eq_of_testBit_eq
  intro i
  simp only [Nat.testBit_and, compl32, Nat.testBit_xor, Nat.zero_testBit, Nat.one_shiftLeft,
    Nat.testBit_two_pow]
  by_cases hik : k = i
  · subst hik
    have h3 : (0xffffffff : Nat).testBit k = true := by
      rw [show (0xffffffff : Nat) = 2 ^ 32 - 1 by norm_num, Nat.testBit_two_pow_sub_one]
      simp [hk]
    simp [h3]
  · simp [hik]

theorem IEC_ne_IFS (n m : Nat) (hm : m < 6) : IEC n ≠ IFS m := by
  simp only [IEC, IFS]
  omega

theorem IPC_ne_IFS (n m : Nat) (hm : m < 6) : IPC n ≠ IFS m := by
  simp only [IPC, IFS]
  omega

theorem IFS_ne_IFS (n m : Nat) (h : n ≠ m) : IFS n ≠ IFS m := by
  simp only [IFS]
  omega

/-- C5.  Arbitration never fails and an empty pending-and-enabled set
yields the "no interrupt" result: if no source has both its flag and
enable bits set, the recompute leaves INTSTAT = 0, the scanned
`(level, vector)` pair is `(0, 0)` and the CPU-visible priority level
is 0; in particular, clearing the single pending-and-enabled source
drops the arbitration result to level 0 / vector 0. -/
theorem arbitration_empty_result (s : Pic32) :
    ((∀ n < 6, VALUE s (IFS n) &&& VALUE s (IEC n) = 0) →
      VALUE (update_irq_status s) INTSTAT = 0 ∧ irqScan s = (0, 0) ∧
        ripl (update_irq_status s) = 0) ∧
    (∀ irq, irq ≤ 190 →
      (∀ n < 6, VALUE s (IFS n) &&& VALUE s (IEC n) =
          if n = irq / 32 then 1 <<< (irq % 32) else 0) →
      VALUE (irq_clear s irq) INTSTAT = 0 ∧ ripl (irq_clear s irq) = 0) := by
  constructor
  · exact update_no_pending s
  · intro irq hirq h
    have hb : irq / 32 < 6 := by omega
    have hm := h (irq / 32) hb
    rw [if_pos rfl] at hm
    have hfe : (VALUE s (IFS (irq / 32)) &&&
        VALUE s (IEC (irq / 32))).testBit (irq % 32) = true := by
      rw [hm, Nat.one_shiftLeft, Nat.testBit_two_pow]
      simp
    rw [Nat.testBit_and, Bool.and_eq_true] at hfe
    have hcond : ¬ VALUE s (IFS (irq / 32)) &&& (1 <<< (irq % 32)) = 0 :=
      (and_one_shiftLeft_ne_zero_iff _ _).mpr hfe.1
    rw [irq_clear, if_neg hcond]
    have hnone : ∀ n < 6,
        VALUE (setV s (IFS (irq / 32))
          (VALUE s (IFS (irq / 32)) &&& compl32 (1 <<< (irq % 32)))) (IFS n) &&&
        VALUE (setV s (IFS (irq / 32))
          (VALUE s (IFS (irq / 32)) &&& compl32 (1 <<< (irq % 32)))) (IEC n) = 0 := by
      intro n hn
      rw [VALUE_setV_ne _ _ _ _ (IEC_ne_IFS n (irq / 32) hb)]
      by_cases hnb : n = irq / 32
      · subst hnb
        rw [VALUE_setV_self, Nat.and_assoc,
          Nat.and_comm (compl32 (1 <<< (irq % 32))) (VALUE s (IEC (irq / 32))), ← Nat.and_assoc]
        rw [hm]
        exact shift_and_compl32_self _ (by omega)
      · rw [VALUE_setV_ne _ _ _ _ (IFS_ne_IFS n (irq / 32) hnb)]
        have h' := h n hn
        rw [if_neg hnb] at h'
        exact h'
    have hup := update_no_pending _ hnone
    exact ⟨hup.1, hup.2.2⟩

/-- Only pending-and-enabled source: source 0 in bank 0. -/
def soloCex : Pic32 := setV (setV pic32_init (IFS 0) 1) (IEC 0) 1

theorem arbitration_empty_result_witness :
    (VALUE (update_irq_status pic32_init) INTSTAT = 0 ∧ irqScan pic32_init = (0, 0) ∧
      ripl (update_irq_status pic32_init) = 0) ∧
    (VALUE (irq_clear soloCex 0) INTSTAT = 0 ∧ ripl (irq_clear soloCex 0) = 0) :=
  ⟨(arbitration_empty_result pic32_init).1 (by decide),
   (arbitration_empty_result soloCex).2 0 (by norm_num) (by decide)⟩

/-! ### Order invariance of raise sequences (C3) -/

/-- Harness for stating raise-order invariance: apply `irq_raise` to
each listed source in order. -/
def applyRaises (s : Pic32) (l : List Nat) : Pic32 := l.foldl irq_raise s

/-- The flag bits contributed to bank `n` by a list of raises. -/
def bankBits (l : List Nat) (n : Nat) : Nat :=
  l.foldl (fun acc i => acc ||| (if n = i / 32 then 1 <<< (i % 32) else 0)) 0

theorem foldl_or_init (g : Nat → Nat) (l : List Nat) (a : Nat) :
    l.foldl (fun acc x => acc ||| g x) a = a ||| l.foldl (fun acc x => acc ||| g x) 0 := by
  induction l generalizing a with
  | nil => simp
  | cons x l ih =>
    rw [List.foldl_cons, List.foldl_cons, ih (a ||| g x), ih (0 ||| g x), Nat.zero_or,
      Nat.or_assoc]

theorem bankBits_cons (i : Nat) (l : List Nat) (n : Nat) :
    bankBits (i :: l) n = (if n = i / 32 then 1 <<< (i % 32) else 0) ||| bankBits l n := by
  rw [bankBits, List.foldl_cons, foldl_or_init, Nat.zero_or, bankBits]

theorem bankBits_perm (l₁ l₂ : List Nat) (h : l₁.Perm l₂) (n : Nat) :
    bankBits l₁ n = bankBits l₂ n := by
  induction h with
  | nil => rfl
  | cons x _ ih => rw [bankBits_cons, bankBits_cons, ih]
  | swap x y l =>
    rw [bankBits_cons, bankBits_cons, bankBits_cons, bankBits_cons, ← Nat.or_assoc,
      ← Nat.or_assoc]
    congr 1
    exact Nat.or_comm _ _
  | trans _ _ ih1 ih2 => rw [ih1, ih2]

theorem irq_raise_IFS (s : Pic32) (irq n : Nat) (hn : n < 6) :
    VALUE (irq_raise s irq) (IFS n) =
      VALUE s (IFS n) ||| (if n = irq / 32 then 1 <<< (irq % 32) else 0) := by
  by_cases hp : VALUE s (IFS (irq / 32)) &&& (1 <<< (irq % 32)) ≠ 0
  · rw [irq_raise_of_pending s irq hp]
    by_cases hnb : n = irq / 32
    · subst hnb
      rw [if_pos rfl]
      exact (or_one_shiftLeft_of_testBit _ _ ((and_one_shiftLeft_ne_zero_iff _ _).mp hp)).symm
    · rw [if_neg hnb, Nat.or_zero]
  · rw [irq_raise_of_not_pending s irq hp, update_irq_status_VALUE _ _ (IFS_ne_INTSTAT n)]
    by_cases hnb : n = irq / 32
    · subst hnb
      rw [VALUE_setV_self, if_pos rfl]
    · rw [VALUE_setV_ne _ _ _ _ (IFS_ne_IFS n (irq / 32) hnb), if_neg hnb, Nat.or_zero]

theorem irq_raise_IEC (s : Pic32) (irq n : Nat) (hirq : irq ≤ 190) (hn : n < 6) :
    VALUE (irq_raise s irq) (IEC n) = VALUE s (IEC n) := by
  by_cases hp : VALUE s (IFS (irq / 32)) &&& (1 <<< (irq % 32)) ≠ 0
  · rw [irq_raise_of_pending s irq hp]
  · rw [irq_raise_of_not_pending s irq hp, update_irq_status_VALUE _ _ (IEC_ne_INTSTAT n),
      VALUE_setV_ne _ _ _ _ (IEC_ne_IFS n (irq / 32) (by omega))]

theorem irq_raise_IPC (s : Pic32) (irq n : Nat) (hirq : irq ≤ 190) (hn : n < 48) :
    VALUE (irq_raise s irq) (IPC n) = VALUE s (IPC n) := by
  by_cases hp : VALUE s (IFS (irq / 32)) &&& (1 <<< (irq % 32)) ≠ 0
  · rw [irq_raise_of_pending s irq hp]
  · rw [irq_raise_of_not_pending s irq hp, update_irq_status_VALUE _ _ (IPC_ne_INTSTAT n),
      VALUE_setV_ne _ _ _ _ (IPC_ne_IFS n (irq / 32) (by omega))]

theorem applyRaises_IFS (l : List Nat) (s : Pic32) (n : Nat) (hn : n < 6) :
    VALUE (applyRaises s l) (IFS n) = VALUE s (IFS n) ||| bankBits l n := by
  induction l generalizing s with
  | nil => simp [applyRaises, bankBits]
  | cons i l ih =>
    rw [applyRaises, List.foldl_cons,
      show List.foldl irq_raise (irq_raise s i) l = applyRaises (irq_raise s i) l from rfl,
      ih (irq_raise s i), irq_raise_IFS s i n hn, bankBits_cons, Nat.or_assoc]

theorem applyRaises_IEC (l : List Nat) (s : Pic32) (n : Nat) (hl : ∀ i ∈ l, i ≤ 190)
    (hn : n < 6) : VALUE (applyRaises s l) (IEC n) = VALUE s (IEC n) := by
  induction l generalizing s with
  | nil => rfl
  | cons i l ih =>
    rw [applyRaises, List.foldl_cons,
      show List.foldl irq_raise (irq_raise s i) l = applyRaises (irq_raise s i) l from rfl,
      ih (irq_raise s i) (fun j hj => hl j (List.mem_cons_of_mem i hj)),
      irq_raise_IEC s i n (hl i (List.mem_cons_self i l)) hn]

theorem applyRaises_IPC (l : List Nat) (s : Pic32) (n : Nat) (hl : ∀ i ∈ l, i ≤ 190)
    (hn : n < 48) : VALUE (applyRaises s l) (IPC n) = VALUE s (IPC n) := by
  induction l generalizing s with
  | nil => rfl
  | cons i l ih =>
    rw [applyRaises, List.foldl_cons,
      show List.foldl irq_raise (irq_raise s i) l = applyRaises (irq_raise s i) l from rfl,
      ih (irq_raise s i) (fun j hj => hl j (List.mem_cons_of_mem i hj)),
      irq_raise_IPC s i n (hl i (List.mem_cons_self i l)) hn]

/-- C3 (amended).  The scan result `(level, vector)` of the
arbitration: the level bounds the extracted priority level of every
pending-and-enabled source; when the level is positive it is attained
at `vector`, which is pending-and-enabled, and every lower-numbered
pending-and-enabled source is strictly below it (ties go to the
lowest source index); when no pending-and-enabled source has a
positive level the result is `(0, 0)` (a pending-and-enabled source
whose extracted level is 0 is never selected, because the strict
greater-than comparison starts from 0).  INTSTAT publishes
`vector | (level << 8)`.  The result is a function of the final
flag/enable/priority bank state only, hence invariant to the order of
the preceding raise calls. -/
theorem arbitration_picks_first_max (s : Pic32) :
    (∀ j, j ≤ 190 → irqPending s j = true → irqLevel s j ≤ (irqScan s).1) ∧
    (0 < (irqScan s).1 →
      (irqScan s).2 ≤ 190 ∧ irqPending s (irqScan s).2 = true ∧
      irqLevel s (irqScan s).2 = (irqScan s).1 ∧
      ∀ j, j < (irqScan s).2 → irqPending s j = true → irqLevel s j < (irqScan s).1) ∧
    ((irqScan s).1 = 0 → (irqScan s).2 = 0) ∧
    VALUE (update_irq_status s) INTSTAT = (irqScan s).2 ||| ((irqScan s).1 <<< 8) ∧
    (∀ t : Pic32,
      (∀ n < 6, VALUE t (IFS n) = VALUE s (IFS n) ∧ VALUE t (IEC n) = VALUE s (IEC n)) →
      (∀ n < 48, VALUE t (IPC n) = VALUE s (IPC n)) → irqScan t = irqScan s) ∧
    (∀ l₁ l₂ : List Nat, (∀ i ∈ l₁, i ≤ 190) → l₁.Perm l₂ →
      irqScan (applyRaises s l₁) = irqScan (applyRaises s l₂)) := by
  obtain ⟨inv1, inv2, inv3⟩ := scan_foldl_inv (irqPending s) (irqLevel s) (PIC32_IRQ_LAST + 1)
  have e : (List.range (PIC32_IRQ_LAST + 1)).foldl
      (scanStep (irqPending s) (irqLevel s)) (0, 0) = irqScan s := rfl
  rw [e] at inv1 inv2 inv3
  refine ⟨?_, ?_, inv3, update_irq_status_INTSTAT s, irqScan_congr s, ?_⟩
  · intro j hj hp
    exact inv1 j (by simp only [PIC32_IRQ_LAST]; omega) hp
  · intro hpos
    obtain ⟨h1, h2, h3, h4⟩ := inv2 hpos
    refine ⟨by simp only [PIC32_IRQ_LAST] at h1; omega, h2, h3, h4⟩
  · intro l₁ l₂ hl hperm
    have hl₂ : ∀ i ∈ l₂, i ≤ 190 := fun i hi => hl i (hperm.mem_iff.mpr hi)
    apply irqScan_congr (applyRaises s l₂) (applyRaises s l₁)
    · intro n hn
      rw [applyRaises_IFS l₁ s n hn, applyRaises_IFS l₂ s n hn,
        applyRaises_IEC l₁ s n hl hn, applyRaises_IEC l₂ s n hl₂ hn,
        bankBits_perm l₁ l₂ hperm n]
      exact ⟨rfl, rfl⟩
    · intro n hn
      rw [applyRaises_IPC l₁ s n hl hn, applyRaises_IPC l₂ s n hl₂ hn]

/-- Two sources of equal positive priority in bank 0 (indices 1 and 2,
both level 3 in IPC0): the scan must pick the lower index. -/
def tieCex : Pic32 :=
  setV (setV (setV pic32_init (IFS 0) 6) (IEC 0) 6) (IPC 0) ((3 <<< 10) ||| (3 <<< 18))

set_option maxRecDepth 40000 in
theorem arbitration_picks_first_max_witness :
    irqLevel tieCex 2 ≤ (irqScan tieCex).1 ∧
    irqPending tieCex (irqScan tieCex).2 = true ∧
    irqLevel tieCex (irqScan tieCex).2 = (irqScan tieCex).1 ∧
    irqScan (applyRaises tieCex [1, 2]) = irqScan (applyRaises tieCex [2, 1]) :=
  ⟨(arbitration_picks_first_max tieCex).1 2 (by norm_num) (by decide),
   ((arbitration_picks_first_max tieCex).2.1 (by decide)).2.1,
   ((arbitration_picks_first_max tieCex).2.1 (by decide)).2.2.1,
   (arbitration_picks_first_max tieCex).2.2.2.2.2 [1, 2] [2, 1] (by decide)
     (List.Perm.swap 2 1 [])⟩

/-- A pending-and-enabled source whose priority field is 0: source 1
in bank 0, with IPC0 = 0. -/
def levelZeroCex : Pic32 := setV (setV pic32_init (IFS 0) 2) (IEC 0) 2

set_option maxRecDepth 40000 in
/-- C3 (counterexample to the claim as stated).  In `levelZeroCex` the
only source with both flag and enable bits set is index 1, yet the
scan returns `(0, 0)` and INTSTAT reads 0: the selected vector 0 is
not a pending-and-enabled source at all (its flag bit is clear), so
the recompute does not select "among all source indices whose flag bit
and enable bit are both set" a source of numerically highest level —
a pending-and-enabled source whose extracted level is 0 is skipped. -/
theorem arbitration_level_zero_not_selected :
    irqPending levelZeroCex 1 = true ∧ irqPending levelZeroCex 0 = false ∧
    irqScan levelZeroCex = (0, 0) ∧ VALUE (update_irq_status levelZeroCex) INTSTAT = 0 := by
  decide

/-! ### Alias reads (C7) -/

/-- The CLR/SET/INV alias read cases of `io_read32` embedded here:
each is a `STORAGE(name); *bufp = 0; break` case. -/
def aliasReadOffsets : List Nat :=
  [REFO1CON + 4, REFO1CON + 8, REFO1CON + 12,
   REFO2CON + 4, REFO2CON + 8, REFO2CON + 12,
   REFO3CON + 4, REFO3CON + 8, REFO3CON + 12,
   REFO4CON + 4, REFO4CON + 8, REFO4CON + 12,
   PB1DIV + 4, PB1DIV + 8, PB1DIV + 12,
   PB2DIV + 4, PB2DIV + 8, PB2DIV + 12,
   PB3DIV + 4, PB3DIV + 8, PB3DIV + 12,
   PB4DIV + 4, PB4DIV + 8, PB4DIV + 12,
   PB5DIV + 4, PB5DIV + 8, PB5DIV + 12,
   PB7DIV + 4, PB7DIV + 8, PB7DIV + 12,
   PB8DIV + 4, PB8DIV + 8, PB8DIV + 12,
   U1MODE + 4, U1MODE + 8, U1MODE + 12,
   U1STA + 4, U1STA + 8, U1STA + 12,
   U1BRG + 4, U1BRG + 8, U1BRG + 12]

/-- C7 (amended).  A read through any CLR/SET/INV alias offset returns
hardwired zero — not the canonical register's current value — and
forces the alias's own cell to zero, for every machine state and
every collaborator. -/
theorem alias_read_returns_zero (ext : ExtOps) (s : Pic32) (off : Nat)
    (h : off ∈ aliasReadOffsets) :
    io_read32 ext s off = .ok (setV s off 0) 0 := by
  fin_cases h <;> rfl

theorem alias_read_returns_zero_witness :
    io_read32 extId (setV pic32_init REFO1CON 5) (REFO1CON + 4) =
      .ok (setV (setV pic32_init REFO1CON 5) (REFO1CON + 4) 0) 0 :=
  alias_read_returns_zero extId (setV pic32_init REFO1CON 5) (REFO1CON + 4)
    (by simp [aliasReadOffsets])

/-- C7 (counterexample to the claim as stated).  With REFO1CON
holding 5, reading its CLR alias returns 0, not the canonical
register's current value 5. -/
theorem alias_read_not_canonical :
    rvalue (io_read32 extId (setV pic32_init REFO1CON 5) (REFO1CON + 4)) = some 0 ∧
    VALUE (setV pic32_init REFO1CON 5) REFO1CON = 5 ∧ (0 : Nat) ≠ 5 := by
  decide

/-! ### Narrow accesses (C6) -/

/-- Run a write access followed by a read access through the MMIO
entry points (the fatal case of the write propagates). -/
def writeThenRead (ext : ExtOps) (s : Pic32) (waddr wdata wbytes raddr rbytes : Nat) :
    RResult :=
  match pic32_io_write ext s waddr wdata wbytes with
  | .ok s' => pic32_io_read ext s' raddr rbytes
  | .fatal d => .fatal d

/-- The embedded plain-storage registers (pure `STORAGE` cases on both
the read and the write switch). -/
def plainStorageRegs : List Nat := [RCON, OSCCON, OSCTUN, SPLLCON]

/-- C6 (amended).  For each access width, a narrow write to a
plain-storage register followed by a full-word read at the containing
word address returns exactly the narrow value positioned at the byte
offset selected by the low address bits (byte: shifted by
`(offset & 3) * 8`; half-word: shifted by 16 when address bit 1 is
set); the other bytes of the word read back as zero, because the
shifted value replaces the whole stored word — they are NOT the bytes
stored before the narrow write. -/
theorem narrow_write_word_read (ext : ExtOps) (s : Pic32) (reg : Nat)
    (h : reg ∈ plainStorageRegs) :
    (∀ sub v, sub < 4 → rvalue (writeThenRead ext s (reg + sub) v 1 reg 4) =
        some ((v % 0x100) <<< (sub * 8))) ∧
    (∀ sub v, sub < 4 → rvalue (writeThenRead ext s (reg + sub) v 2 reg 4) =
        some ((v % 0x10000) <<< (if sub &&& 2 ≠ 0 then 16 else 0))) ∧
    (∀ v, rvalue (writeThenRead ext s reg v 4 reg 4) = some (v % 0x100000000)) := by
  fin_cases h <;>
    exact ⟨fun sub v hsub => by interval_cases sub <;> rfl,
           fun sub v hsub => by interval_cases sub <;> rfl,
           fun v => rfl⟩

theorem narrow_write_word_read_witness :
    rvalue (writeThenRead extId pic32_init (RCON + 1) 0x55 1 RCON 4) =
      some ((0x55 % 0x100) <<< (1 * 8)) :=
  (narrow_write_word_read extId pic32_init RCON (by simp [plainStorageRegs])).1 1 0x55
    (by norm_num)

/-- C6 (counterexample to the claim as stated).  Store 0x11223344 in
RCON, then byte-write 0x55 at byte offset 1: the word read back is
0x00005500 — the narrow value is correctly positioned, but the other
three bytes are zero, not the 0x11, 0x22, 0x44 stored before the
narrow write (the claim's expected word would be 0x11225544). -/
theorem narrow_write_clears_other_bytes :
    rvalue (writeThenRead extId (writeStep (io_reset pic32_init) RCON 0x11223344) (RCON + 1)
      0x55 1 RCON 4) = some 0x5500 ∧ (0x5500 : Nat) ≠ 0x11225544 := by
  decide
